import Mathlib

/-!
Shallow embedding of the braibot-assetserver HTTP file relay (src/main.go).

Conventions used throughout this development:

* Go strings are Lean `String`s; byte payloads are `List UInt8`.
* The flat upload directory (the Storage Backend) is an association list
  from full file paths to byte contents.
* Filesystem and entropy failures are modelled by explicit Boolean oracles
  threaded into the functions that perform the corresponding Go calls.
* `strings.ToLower` is modelled for the ASCII media-type strings the server
  compares (Go's full Unicode folding agrees with ASCII folding there).
-/

namespace AssetServer

/-- Models strings.ToLower for the ASCII strings compared by the server. -/
def toLowerStr (s : String) : String := String.mk (s.data.map Char.toLower)

/-- Models strings.HasPrefix: s begins with pre. -/
def goHasPfx (s pre : String) : Bool :=
  s.data.take pre.data.length == pre.data

/-- Models strings.HasSuffix: s ends with suf. -/
def goHasSfx (s suf : String) : Bool :=
  decide (suf.data.length ≤ s.data.length) &&
    (s.data.drop (s.data.length - suf.data.length) == suf.data)

/-- Models strings.TrimSuffix: drop suf from the end of s when present. -/
def goTrimSfx (s suf : String) : String :=
  if goHasSfx s suf then String.mk (s.data.take (s.data.length - suf.data.length)) else s

/-- Drops the list p from the front of s, or fails when p is not there. -/
def dropPfx : List Char → List Char → Option (List Char)
  | [], s => some s
  | _ :: _, [] => none
  | p :: ps, c :: cs => if p = c then dropPfx ps cs else none

/-- Models strings.TrimPrefix via dropPfx. -/
def goTrimPfx (s pre : String) : String :=
  match dropPfx pre.data s.data with
  | some rest => String.mk rest
  | none => s

/-- Models path/filepath.Join for a clean directory and a separator-free file
name, the only shapes this server ever joins (generated names are base64
plus an extension, which contains no path separator). -/
def goJoin (dir name : String) : String := dir ++ ("/") ++ name

/-- Models path/filepath.Ext's scan of the path from its last character
backwards: stop at a path separator, return the suffix from the last dot.
The argument is the reversed character list; acc holds the characters
already scanned, in original order. -/
def goExtLoop (acc : List Char) : List Char → List Char
  | [] => []
  | c :: rest =>
    if c = '/' then []
    else if c = '.' then c :: acc
    else goExtLoop (c :: acc) rest

/-- Models path/filepath.Ext. -/
def goExt (path : String) : String := String.mk (goExtLoop [] path.data.reverse)

/-- The alphabet of base64.URLEncoding (RFC 4648 URL-safe). -/
def base64urlAlphabet : String :=
  "ABCDEFGHIJKLMNOPQRSTUVWXYZabcdefghijklmnopqrstuvwxyz0123456789-_"

/-- Character n of the URL-safe base64 alphabet. -/
def b64Char (n : Nat) : Char := base64urlAlphabet.data.getD n 'A'

/-- Models base64.URLEncoding.EncodeToString: standard padded base64 over the
URL-safe alphabet, grouping the input in threes. -/
def base64urlEncode : List UInt8 → String
  | [] => ""
  | [a] =>
    String.mk [b64Char (a.toNat / 4), b64Char (a.toNat % 4 * 16), '=', '=']
  | [a, b] =>
    String.mk [b64Char (a.toNat / 4), b64Char (a.toNat % 4 * 16 + b.toNat / 16),
      b64Char (b.toNat % 16 * 4), '=']
  | a :: b :: c :: rest =>
    String.mk [b64Char (a.toNat / 4), b64Char (a.toNat % 4 * 16 + b.toNat / 16),
      b64Char (b.toNat % 16 * 4 + c.toNat / 64), b64Char (c.toNat % 64)]
      ++ base64urlEncode rest

/-- The server-wide configuration (config.json), already validated by
loadConfig: maxFileSize is positive, apiKey, uploadDir and domain nonempty. -/
structure Config where
  maxFileSize : Nat
  apiKey : String
  uploadDir : String
  port : String
  domain : String
  allowedTypes : List String

/-- The upload directory as a flat map from full file paths to contents. -/
abbrev Store := List (String × List UInt8)

/-- Filesystem lookup by name (os.Open / the existence check). -/
def storeLookup : Store → String → Option (List UInt8)
  | [], _ => none
  | (k, v) :: rest, key => if k = key then some v else storeLookup rest key

/-- Create or overwrite a file (os.Create truncates, io.Copy fills). -/
def storeSet : Store → String → List UInt8 → Store
  | [], key, val => [(key, val)]
  | (k, v) :: rest, key, val =>
    if k = key then (k, val) :: rest else (k, v) :: storeSet rest key val

/-- Remove a file by name (os.Remove). A directory never holds two files of
the same name, so removing every entry with the name is the same as removing
the one file. -/
def storeErase : Store → String → Store
  | [], _ => []
  | (k, v) :: rest, key =>
    if k = key then storeErase rest key else (k, v) :: storeErase rest key

/-- Translation of isAllowedFileType (src/main.go:115): lowercase the
candidate, first scan the allow-list for an exact (case-insensitive) match,
then scan it again for wildcard entries of shape category/*, trimming the
/* suffix and testing whether the lowercased candidate begins with what
remains. -/
def isAllowedFileType (allowedTypes : List String) (contentType : String) : Bool :=
  let ctLower := toLowerStr contentType
  (allowedTypes.any fun a => toLowerStr a == ctLower) ||
  (allowedTypes.any fun a =>
    let al := toLowerStr a
    goHasSfx al ("/*") && goHasPfx ctLower (goTrimSfx al ("/*")))

/-- Modelled from the spec (section 4.2) for comparison with the source's
isAllowedFileType: a wildcard entry category/* matches exactly the
candidates that begin, case-insensitively, with category followed by a
slash. -/
def specAllowedFileType (allowedTypes : List String) (contentType : String) : Bool :=
  let ctLower := toLowerStr contentType
  (allowedTypes.any fun a => toLowerStr a == ctLower) ||
  (allowedTypes.any fun a =>
    let al := toLowerStr a
    goHasSfx al ("/*") && goHasPfx ctLower (goTrimSfx al ("/*") ++ ("/")))

/-- An HTTP answer of the server: either http.Error (a plain status and text)
or a 200 JSON body encoding the Response struct. Response.URL is "" when the
JSON omits it (omitempty), and maxSizeField is none when the JSON omits
max_file_size (omitempty on a zero value). -/
inductive HttpResponse where
  | plain (status : Nat) (body : String)
  | json (success : Bool) (message : String) (url : String) (maxSizeField : Option Nat)
  deriving DecidableEq

/-- The HTTP status code carried by an HttpResponse; JSON answers are written
without WriteHeader and therefore go out with status 200. -/
def httpStatus : HttpResponse → Nat
  | .plain s _ => s
  | .json _ _ _ _ => 200

/-- Translation of sendJSONResponse (src/main.go:428): a 200 JSON body whose
max_file_size field is always omitted (the Response value leaves it zero). -/
def sendJSONResponse (success : Bool) (message url : String) : HttpResponse :=
  .json success message url none

/-- Observable side effects of a handler, in program order: readCapped n is
the multipart path reading the body through http.MaxBytesReader, readAll n is
the url-encoded path reading the whole body uncapped via ParseForm,
bufferDecoded n is the url-encoded path materialising the fully decoded
payload, streamBody is io.Copy to the response, and scheduleDelete is the
spawned delayed os.Remove. -/
inductive Event where
  | readCapped (n : Nat)
  | readAll (n : Nat)
  | bufferDecoded (n : Nat)
  | streamBody (data : List UInt8)
  | scheduleDelete (path : String)
  deriving DecidableEq

/-- Oracle for the two filesystem calls of saveFileAndGenerateURL: does
os.Create succeed, does io.Copy succeed, and, when io.Copy fails midway,
which bytes it had already written. -/
structure WriteOracle where
  createOk : Bool
  writeOk : Bool
  leftover : List UInt8

/-- Oracle for crypto/rand: whether rand.Read succeeds, and the byte stream
it draws from when it does. -/
structure RandOracle where
  randOk : Bool
  randSrc : Nat → UInt8

/-- Translation of generateRandomFilename (src/main.go:100): take the
extension of the original name, fill a 16-byte buffer from the random
source (failing when the source fails), base64url-encode it and append the
extension. -/
def generateRandomFilename (originalFilename : String) (r : RandOracle) :
    Except Unit String :=
  let ext := goExt originalFilename
  let b := (List.range 16).map r.randSrc
  if r.randOk then .ok (base64urlEncode b ++ ext) else .error ()

/-- Translation of saveFileAndGenerateURL (src/main.go:336): join the upload
directory with the file name, os.Create the file (truncating to empty),
io.Copy the data into it, and build the download URL. A failed copy leaves
the created file behind with whatever bytes were written. -/
def saveFileAndGenerateURL (cfg : Config) (st : Store) (filename : String)
    (data : List UInt8) (o : WriteOracle) : Except Unit String × Store :=
  let path := goJoin cfg.uploadDir filename
  if o.createOk then
    let st1 := storeSet st path []
    if o.writeOk then
      (.ok (("https://") ++ cfg.domain ++ ("/download/") ++ filename), storeSet st1 path data)
    else
      (.error (), storeSet st1 path o.leftover)
  else
    (.error (), st)

/-- An upload request as the handlers observe it. Fields prefixed mp are the
multipart view (meaningful when the request is multipart), fields prefixed
ue the url-encoded view. bodyLen is the raw request body size in bytes.
mpSniffed and ueSniffed model http.DetectContentType on the payload bytes
(the Go stdlib sniffer, never empty), ueDecoded models
base64.StdEncoding.DecodeString on the data field (none on invalid base64),
and mpParseOk / ueParseOk model malformed-form failures of
ParseMultipartForm / ParseForm. Absent headers and fields are "". -/
structure UploadRequest where
  method : String
  xApiKey : String
  contentType : String
  xFileType : String
  bodyLen : Nat
  mpParseOk : Bool
  formFileOk : Bool
  readOk : Bool
  mpFileName : String
  mpFileData : List UInt8
  mpPartType : String
  mpFiletypeField : String
  mpSniffed : String
  ueParseOk : Bool
  ueFilename : String
  ueType : String
  ueData : String
  ueDecoded : Option (List UInt8)
  ueSniffed : String

/-- What a call to an upload handler produces: the HTTP answer, the side
effects it performed, and the resulting upload directory. -/
structure UpOutcome where
  resp : HttpResponse
  events : List Event
  store : Store
  deriving DecidableEq

/-- Translation of the content-type fallback chain of handleMultipartUpload
(src/main.go:221): the part's own Content-Type, then the X-File-Type
header, then the filetype form field, then sniffing. -/
def resolveMultipartContentType (partType xFileType filetypeField sniffed : String) : String :=
  let ct := partType
  let ct := if ct = ("") then xFileType else ct
  let ct := if ct = ("") then filetypeField else ct
  if ct = ("") then sniffed else ct

/-- Translation of the content-type fallback chain of
handleFormUrlEncodedUpload (src/main.go:277): the type form field, then the
X-File-Type header, then (after the size check) sniffing. -/
def resolveUrlEncodedContentType (typeField xFileType sniffed : String) : String :=
  let ft := if typeField = ("") then xFileType else typeField
  if ft = ("") then sniffed else ft

/-- The first non-empty string of a list, or "" if all are empty. Spec-side
description of the resolution chains, for comparison. -/
def firstNonEmpty : List String → String
  | [] => ""
  | s :: rest => if s = ("") then firstNonEmpty rest else s

/-- Translation of handleMultipartUpload (src/main.go:182). The body is read
through http.MaxBytesReader capped at maxFileSize, so ParseMultipartForm
fails — reported as "File too large" — as soon as the raw body exceeds the
cap (at most maxFileSize + 1 bytes are ever read), and also on a malformed
form. Then the file part is fetched, fully read, its length checked, the
content type resolved and validated, a random name generated, and the file
saved. -/
def handleMultipartUpload (cfg : Config) (req : UploadRequest) (st : Store)
    (r : RandOracle) (w : WriteOracle) : UpOutcome :=
  let ev := [Event.readCapped (min req.bodyLen (cfg.maxFileSize + 1))]
  if cfg.maxFileSize < req.bodyLen then ⟨sendJSONResponse false ("File too large") "", ev, st⟩
  else if !req.mpParseOk then ⟨sendJSONResponse false ("File too large") "", ev, st⟩
  else if !req.formFileOk then ⟨sendJSONResponse false ("Error retrieving file") "", ev, st⟩
  else if !req.readOk then ⟨sendJSONResponse false ("Error reading file") "", ev, st⟩
  else if cfg.maxFileSize < req.mpFileData.length then
    ⟨sendJSONResponse false ("File too large") "", ev, st⟩
  else
    let ct := resolveMultipartContentType req.mpPartType req.xFileType
      req.mpFiletypeField req.mpSniffed
    if !isAllowedFileType cfg.allowedTypes ct then
      ⟨sendJSONResponse false ("File type not allowed") "", ev, st⟩
    else
      match generateRandomFilename req.mpFileName r with
      | .error _ => ⟨sendJSONResponse false ("Error generating filename") "", ev, st⟩
      | .ok randomFilename =>
        match saveFileAndGenerateURL cfg st randomFilename req.mpFileData w with
        | (.error _, st1) => ⟨sendJSONResponse false ("Error saving file") "", ev, st1⟩
        | (.ok url, st1) => ⟨sendJSONResponse true ("File uploaded successfully") url, ev, st1⟩

/-- Translation of handleFormUrlEncodedUpload (src/main.go:263). ParseForm
reads the whole raw body with no size cap; the filename defaults to
file.dat; the data field must be present and decode as base64 — the decoded
payload is materialised in full — and only then is its length checked
against the limit. Then the type is resolved and validated, a random name
generated, and the file saved. -/
def handleFormUrlEncodedUpload (cfg : Config) (req : UploadRequest) (st : Store)
    (r : RandOracle) (w : WriteOracle) : UpOutcome :=
  let ev := [Event.readAll req.bodyLen]
  if !req.ueParseOk then ⟨sendJSONResponse false ("Error parsing form") "", ev, st⟩
  else
    let filename := if req.ueFilename = ("") then ("file.dat") else req.ueFilename
    if req.ueData = ("") then ⟨sendJSONResponse false ("No file data provided") "", ev, st⟩
    else
      match req.ueDecoded with
      | none => ⟨sendJSONResponse false ("Error decoding base64 data") "", ev, st⟩
      | some fileData =>
        let ev := ev ++ [Event.bufferDecoded fileData.length]
        if cfg.maxFileSize < fileData.length then
          ⟨sendJSONResponse false ("File too large") "", ev, st⟩
        else
          let ft := resolveUrlEncodedContentType req.ueType req.xFileType req.ueSniffed
          if !isAllowedFileType cfg.allowedTypes ft then
            ⟨sendJSONResponse false ("File type not allowed") "", ev, st⟩
          else
            match generateRandomFilename filename r with
            | .error _ => ⟨sendJSONResponse false ("Error generating filename") "", ev, st⟩
            | .ok randomFilename =>
              match saveFileAndGenerateURL cfg st randomFilename fileData w with
              | (.error _, st1) => ⟨sendJSONResponse false ("Error saving file") "", ev, st1⟩
              | (.ok url, st1) =>
                ⟨sendJSONResponse true ("File uploaded successfully") url, ev, st1⟩

/-- Translation of uploadHandler (src/main.go:150): reject non-POST methods,
check the X-API-Key header against the configured key before touching the
body, then dispatch on the request Content-Type. -/
def uploadHandler (cfg : Config) (req : UploadRequest) (st : Store)
    (r : RandOracle) (w : WriteOracle) : UpOutcome :=
  if req.method ≠ ("POST") then ⟨.plain 405 ("Method not allowed"), [], st⟩
  else if req.xApiKey ≠ cfg.apiKey then ⟨.plain 401 ("Unauthorized"), [], st⟩
  else if goHasPfx req.contentType ("multipart/form-data") then
    handleMultipartUpload cfg req st r w
  else if req.contentType = ("application/x-www-form-urlencoded") then
    handleFormUrlEncodedUpload cfg req st r w
  else ⟨sendJSONResponse false ("Unsupported content type") "", [], st⟩

/-- The answer of the download endpoint: an http.Error, or the streamed file
with its Content-Disposition, Content-Type and Content-Length headers. -/
inductive DlResult where
  | err (status : Nat) (body : String)
  | file (contentDisposition contentType : String) (contentLength : Nat) (body : List UInt8)
  deriving DecidableEq

/-- What a download invocation produces: the answer, the side effects in
program order, and the upload directory as it stands once the spawned
deletion goroutine has run (i.e. after the one-second grace delay). -/
structure DlOutcome where
  result : DlResult
  events : List Event
  storeAfter : Store
  deriving DecidableEq

/-- Translation of downloadHandler (src/main.go:357): reject non-GET, strip
the /download/ path, 404 on an empty name or a missing file, otherwise
stream the whole content with attachment headers and then spawn the delayed
deletion. Stat on the file just opened is modelled as succeeding. The
storeAfter component is the directory after the delayed os.Remove has run;
the trace records that the body is streamed before deletion is scheduled. -/
def downloadHandler (cfg : Config) (st : Store) (method urlPath : String) : DlOutcome :=
  if method ≠ ("GET") then ⟨.err 405 ("Method not allowed"), [], st⟩
  else
    let filename := goTrimPfx urlPath ("/download/")
    if filename = ("") then ⟨.err 404 ("File not found"), [], st⟩
    else
      let path := goJoin cfg.uploadDir filename
      match storeLookup st path with
      | none => ⟨.err 404 ("File not found"), [], st⟩
      | some data =>
        ⟨.file (("attachment; filename=") ++ filename) ("application/octet-stream")
            data.length data,
          [Event.streamBody data, Event.scheduleDelete path],
          storeErase st path⟩

/-- Translation of testHandler (src/main.go:404): reject non-GET, answer a
200 JSON failure on a wrong key, and otherwise a 200 JSON success carrying
max_file_size (omitted by omitempty only when the value is zero). -/
def testHandler (cfg : Config) (method xApiKey : String) : HttpResponse :=
  if method ≠ ("GET") then .plain 405 ("Method not allowed")
  else if xApiKey ≠ cfg.apiKey then sendJSONResponse false ("Invalid API key") ""
  else .json true ("API key is valid") ""
    (if cfg.maxFileSize = 0 then none else some cfg.maxFileSize)

/-- The size of the multipart/form-data body a standard client (e.g. Go's
mime/multipart writer) sends for a single file part with the given boundary,
file name and declared part content type: the opening boundary line, the
Content-Disposition and Content-Type headers, a blank line, the payload, and
the closing boundary. -/
def multipartBodyLen (boundary filename contentType : String) (dataLen : Nat) : Nat :=
  (("--") ++ boundary ++ ("\r\n")
    ++ ("Content-Disposition: form-data; name=\"file\"; filename=\"")
    ++ filename ++ ("\"\r\n")
    ++ ("Content-Type: ") ++ contentType ++ ("\r\n\r\n")).length
  + dataLen
  + (("\r\n--") ++ boundary ++ ("--\r\n")).length

/-! Helper lemmas about the store, string helpers and the base64 encoder. -/

theorem storeLookup_set_self (st : Store) (k : String) (v : List UInt8) :
    storeLookup (storeSet st k v) k = some v := by
  induction st with
  | nil => simp [storeSet, storeLookup]
  | cons hd tl ih =>
    obtain ⟨k', v'⟩ := hd
    by_cases h : k' = k
    · simp [storeSet, storeLookup, h]
    · simp [storeSet, storeLookup, h, ih]

theorem storeLookup_set_ne (st : Store) (k k' : String) (v : List UInt8)
    (h : k' ≠ k) : storeLookup (storeSet st k v) k' = storeLookup st k' := by
  induction st with
  | nil => simp [storeSet, storeLookup, Ne.symm h]
  | cons hd tl ih =>
    obtain ⟨k0, v0⟩ := hd
    by_cases h0 : k0 = k
    · subst h0
      simp [storeSet, storeLookup, Ne.symm h]
    · simp only [storeSet, if_neg h0]
      by_cases h1 : k0 = k'
      · simp [storeLookup, h1]
      · simp [storeLookup, h1, ih]

theorem storeSet_set (st : Store) (k : String) (a b : List UInt8) :
    storeSet (storeSet st k a) k b = storeSet st k b := by
  induction st with
  | nil => simp [storeSet]
  | cons hd tl ih =>
    obtain ⟨k', v'⟩ := hd
    by_cases h : k' = k
    · simp [storeSet, h]
    · simp [storeSet, h, ih]

theorem storeLookup_erase_self (st : Store) (k : String) :
    storeLookup (storeErase st k) k = none := by
  induction st with
  | nil => simp [storeErase, storeLookup]
  | cons hd tl ih =>
    obtain ⟨k', v'⟩ := hd
    by_cases h : k' = k
    · simp [storeErase, h, ih]
    · simp [storeErase, storeLookup, h, ih]

theorem stringMk_data : ∀ s : String, String.mk s.data = s
  | ⟨_⟩ => rfl

theorem dropPfx_append (p r : List Char) : dropPfx p (p ++ r) = some r := by
  induction p with
  | nil => simp [dropPfx]
  | cons c cs ih => simp [dropPfx, ih]

theorem goTrimPfx_append (pre s : String) : goTrimPfx (pre ++ s) pre = s := by
  have hdata : (pre ++ s).data = pre.data ++ s.data := rfl
  simp [goTrimPfx, hdata, dropPfx_append, stringMk_data]

/-- The characters base64.URLEncoding may emit: the URL-safe alphabet plus
the padding character. -/
def isUrlSafeChar (c : Char) : Bool :=
  c.isAlphanum || c = '-' || c = '_' || c = '='

theorem padChar_urlSafe : isUrlSafeChar '=' = true := by decide

theorem b64Char_urlSafe (n : Nat) : isUrlSafeChar (b64Char n) = true := by
  have hall : ∀ c ∈ base64urlAlphabet.data, isUrlSafeChar c = true := by decide
  unfold b64Char
  cases hget : base64urlAlphabet.data.get? n with
  | none =>
    rw [List.getD_eq_getD_get?, hget]
    decide
  | some c =>
    rw [List.getD_eq_getD_get?, hget]
    exact hall c (List.get?_mem hget)

/-- Recursion principle following base64urlEncode's grouping in threes. -/
theorem chunk3_induction {α : Type} (P : List α → Prop) (h0 : P [])
    (h1 : ∀ a, P [a]) (h2 : ∀ a b, P [a, b])
    (h3 : ∀ a b c rest, P rest → P (a :: b :: c :: rest)) : ∀ l, P l
  | [] => h0
  | [a] => h1 a
  | [a, b] => h2 a b
  | a :: b :: c :: rest => h3 a b c rest (chunk3_induction P h0 h1 h2 h3 rest)

theorem base64urlEncode_length (l : List UInt8) :
    (base64urlEncode l).length = (l.length + 2) / 3 * 4 := by
  induction l using chunk3_induction with
  | h0 => decide
  | h1 a => simp [base64urlEncode, String.length_mk]
  | h2 a b => simp [base64urlEncode, String.length_mk]
  | h3 a b c rest ih =>
    have hlen : (String.mk [b64Char (a.toNat / 4),
        b64Char (a.toNat % 4 * 16 + b.toNat / 16),
        b64Char (b.toNat % 16 * 4 + c.toNat / 64), b64Char (c.toNat % 64)]
        ++ base64urlEncode rest).length
        = 4 + (base64urlEncode rest).length := by
      simp [String.length_append, String.length_mk]
    simp only [base64urlEncode, hlen, ih, List.length_cons]
    omega

theorem base64urlEncode_urlSafe (l : List UInt8) :
    (base64urlEncode l).data.all isUrlSafeChar = true := by
  induction l using chunk3_induction with
  | h0 => decide
  | h1 a => simp [base64urlEncode, b64Char_urlSafe, padChar_urlSafe]
  | h2 a b => simp [base64urlEncode, b64Char_urlSafe, padChar_urlSafe]
  | h3 a b c rest ih =>
    have hdata : (String.mk [b64Char (a.toNat / 4),
        b64Char (a.toNat % 4 * 16 + b.toNat / 16),
        b64Char (b.toNat % 16 * 4 + c.toNat / 64), b64Char (c.toNat % 64)]
        ++ base64urlEncode rest).data
        = [b64Char (a.toNat / 4), b64Char (a.toNat % 4 * 16 + b.toNat / 16),
            b64Char (b.toNat % 16 * 4 + c.toNat / 64), b64Char (c.toNat % 64)]
          ++ (base64urlEncode rest).data := rfl
    simp only [base64urlEncode, hdata, List.all_append, List.all_cons, List.all_nil]
    simp [b64Char_urlSafe, ih]

theorem goExtLoop_no_dot (acc : List Char) (l : List Char)
    (h : ∀ c ∈ l, c ≠ '.') : goExtLoop acc l = [] := by
  induction l generalizing acc with
  | nil => simp [goExtLoop]
  | cons c cs ih =>
    have hc : c ≠ '.' := h c (by simp)
    by_cases hs : c = '/'
    · simp [goExtLoop, hs]
    · simp only [goExtLoop, if_neg hs, if_neg hc]
      exact ih _ (fun d hd => h d (by simp [hd]))

/-- A name with no dot has no extension (filepath.Ext returns ""). -/
theorem goExt_no_dot (s : String) (h : ∀ c ∈ s.data, c ≠ '.') : goExt s = "" := by
  have : goExtLoop [] s.data.reverse = [] :=
    goExtLoop_no_dot [] s.data.reverse (fun c hc => h c (List.mem_reverse.mp hc))
  simp [goExt, this]

/-! Claim theorems. -/

/-- A concrete valid configuration used by the witnesses: 10-byte limit,
key secret, upload directory uploads, domain example.com, and an allow-list
with one exact entry and one wildcard. -/
def cfgW : Config :=
  ⟨10, ("secret"), ("uploads"), (":8080"), ("example.com"), [("image/png"), ("image/*")]⟩

/-- C3 (amended): the Type Validator accepts a candidate c iff some
allow-list entry equals c case-insensitively, or some entry of shape
category/* is such that c begins case-insensitively with category — the
slash itself is trimmed together with the star and is not required of the
candidate. Any case permutation of the candidate gets the same verdict. -/
theorem c3_type_validator_semantics (L : List String) (c c' : String) :
    (isAllowedFileType L c = true ↔
      ((∃ a ∈ L, toLowerStr a = toLowerStr c) ∨
       (∃ a ∈ L, goHasSfx (toLowerStr a) ("/*") = true ∧
         goHasPfx (toLowerStr c) (goTrimSfx (toLowerStr a) ("/*")) = true))) ∧
    (toLowerStr c' = toLowerStr c →
      isAllowedFileType L c' = isAllowedFileType L c) := by
  constructor
  · simp only [isAllowedFileType, Bool.or_eq_true, List.any_eq_true, beq_iff_eq,
      Bool.and_eq_true]
  · intro h
    simp only [isAllowedFileType, h]

/-- C3 witness: the case-insensitivity clause applied at a concrete pair. -/
theorem c3_type_validator_semantics_witness :
    isAllowedFileType [("image/png")] ("IMAGE/PNG")
      = isAllowedFileType [("image/png")] ("image/png") :=
  (c3_type_validator_semantics [("image/png")] ("image/png") ("IMAGE/PNG")).2 (by decide)

/-- C3 counterexample: with allow-list [image/*], the source accepts the
candidate imagery although it does not begin with image followed by a
slash, because TrimSuffix removes the slash together with the star; the
spec's matching rule (specAllowedFileType) rejects it. -/
theorem c3_wildcard_counterexample :
    isAllowedFileType [("image/*")] ("imagery") = true ∧
    specAllowedFileType [("image/*")] ("imagery") = false :=
  ⟨by decide, by decide⟩

/-- C7: for both transport shapes the content type handed to the Type
Validator is the first non-empty value of, in order: the multipart part's
declared type (or the type form field for url-encoded), the X-File-Type
override header, for multipart only the filetype form field, and the type
sniffed from the payload bytes. -/
theorem c7_content_type_resolution (a b c d t : String) :
    resolveMultipartContentType a b c d = firstNonEmpty [a, b, c, d] ∧
    resolveUrlEncodedContentType t b d = firstNonEmpty [t, b, d] := by
  constructor
  · simp only [resolveMultipartContentType, firstNonEmpty]
    by_cases ha : a = ("") <;> by_cases hb : b = ("") <;> by_cases hc : c = ("") <;>
      by_cases hd : d = ("") <;> simp [ha, hb, hc, hd]
  · simp only [resolveUrlEncodedContentType, firstNonEmpty]
    by_cases ht : t = ("") <;> by_cases hb : b = ("") <;> by_cases hd : d = ("") <;>
      simp [ht, hb, hd]

/-- C10: a test request with a wrong or missing key is answered with HTTP
status 200 and a JSON body with success false, message Invalid API key and
no max_file_size field; the correct key yields success true with
max_file_size equal to the configured limit. -/
theorem c10_test_endpoint (cfg : Config) (key : String)
    (hpos : 0 < cfg.maxFileSize) :
    (key ≠ cfg.apiKey →
      testHandler cfg ("GET") key = .json false ("Invalid API key") "" none ∧
      httpStatus (testHandler cfg ("GET") key) = 200) ∧
    testHandler cfg ("GET") cfg.apiKey
      = .json true ("API key is valid") "" (some cfg.maxFileSize) := by
  have hz : ¬cfg.maxFileSize = 0 := by omega
  constructor
  · intro hk
    simp [testHandler, sendJSONResponse, httpStatus, hk]
  · simp [testHandler, hz]

/-- C10 witness: the test endpoint evaluated at the concrete configuration
with a wrong and with the right key. -/
theorem c10_test_endpoint_witness :
    testHandler cfgW ("GET") ("wrong") = .json false ("Invalid API key") "" none ∧
    testHandler cfgW ("GET") ("secret") = .json true ("API key is valid") "" (some 10) :=
  ⟨((c10_test_endpoint cfgW ("wrong") (by decide)).1 (by decide)).1,
    (c10_test_endpoint cfgW ("wrong") (by decide)).2⟩

/-- A concrete healthy oracle pair for the witnesses: entropy available and
drawing zero bytes; filesystem writes succeed. -/
def randW : RandOracle := ⟨true, fun _ => 0⟩

/-- A concrete write oracle for the witnesses: create and copy succeed. -/
def wrW : WriteOracle := ⟨true, true, []⟩

/-- A concrete well-formed multipart upload request for the witnesses:
right key, 3-byte png payload, nothing malformed. -/
def reqW : UploadRequest :=
  { method := ("POST"), xApiKey := ("secret")
    contentType := ("multipart/form-data; boundary=b"), xFileType := ("")
    bodyLen := 8, mpParseOk := true, formFileOk := true, readOk := true
    mpFileName := ("photo.png"), mpFileData := [1, 2, 3]
    mpPartType := ("image/png"), mpFiletypeField := (""), mpSniffed := ("image/png")
    ueParseOk := true, ueFilename := (""), ueType := (""), ueData := ("")
    ueDecoded := none, ueSniffed := ("") }

/-- C5: an upload request whose X-API-Key differs from the configured key is
answered 401 Unauthorized (when it is a POST), performs no body read and no
storage I/O, and leaves the upload directory untouched; a test request with
the same wrong key reports failure. -/
theorem c5_auth_rejection (cfg : Config) (req : UploadRequest) (st : Store)
    (r : RandOracle) (w : WriteOracle) (hk : req.xApiKey ≠ cfg.apiKey) :
    (uploadHandler cfg req st r w).store = st ∧
    (uploadHandler cfg req st r w).events = [] ∧
    (req.method = ("POST") →
      (uploadHandler cfg req st r w).resp = .plain 401 ("Unauthorized")) ∧
    testHandler cfg ("GET") req.xApiKey = .json false ("Invalid API key") "" none := by
  by_cases hm : req.method = ("POST")
  · simp [uploadHandler, hm, hk, testHandler, sendJSONResponse]
  · simp [uploadHandler, hm, hk, testHandler, sendJSONResponse]

/-- C5 witness: the wrong-key request evaluated at the concrete fixtures. -/
theorem c5_auth_rejection_witness :
    (uploadHandler cfgW { reqW with xApiKey := ("wrong") } [] randW wrW).store = [] ∧
    (uploadHandler cfgW { reqW with xApiKey := ("wrong") } [] randW wrW).resp
      = .plain 401 ("Unauthorized") := by
  have h := c5_auth_rejection cfgW { reqW with xApiKey := ("wrong") } [] randW wrW (by decide)
  exact ⟨h.1, h.2.2.1 (by decide)⟩

/-- C1: a download of a stored identifier streams the full content (with
status 200 and exact length), records the body stream strictly before the
deletion is scheduled, and once the delayed deletion has run, a second
download of the same identifier is answered 404. -/
theorem c1_one_time_delivery (cfg : Config) (st : Store) (fn : String)
    (data : List UInt8) (h1 : fn ≠ (""))
    (h2 : storeLookup st (goJoin cfg.uploadDir fn) = some data) :
    downloadHandler cfg st ("GET") (("/download/") ++ fn)
      = ⟨.file (("attachment; filename=") ++ fn) ("application/octet-stream")
            data.length data,
          [Event.streamBody data, Event.scheduleDelete (goJoin cfg.uploadDir fn)],
          storeErase st (goJoin cfg.uploadDir fn)⟩ ∧
    (downloadHandler cfg
        (downloadHandler cfg st ("GET") (("/download/") ++ fn)).storeAfter
        ("GET") (("/download/") ++ fn)).result
      = .err 404 ("File not found") := by
  have htrim : goTrimPfx (("/download/") ++ fn) ("/download/") = fn :=
    goTrimPfx_append _ _
  have hfirst : downloadHandler cfg st ("GET") (("/download/") ++ fn)
      = ⟨.file (("attachment; filename=") ++ fn) ("application/octet-stream")
            data.length data,
          [Event.streamBody data, Event.scheduleDelete (goJoin cfg.uploadDir fn)],
          storeErase st (goJoin cfg.uploadDir fn)⟩ := by
    simp [downloadHandler, htrim, h1, h2]
  refine ⟨hfirst, ?_⟩
  rw [hfirst]
  simp [downloadHandler, htrim, h1, storeLookup_erase_self]

/-- C1 witness: one stored two-byte file, downloaded twice. -/
theorem c1_one_time_delivery_witness :
    downloadHandler cfgW [(("uploads/a.png"), [5, 6])] ("GET") ("/download/a.png")
      = ⟨.file ("attachment; filename=a.png") ("application/octet-stream") 2 [5, 6],
          [Event.streamBody [5, 6], Event.scheduleDelete ("uploads/a.png")], []⟩ ∧
    (downloadHandler cfgW
        (downloadHandler cfgW [(("uploads/a.png"), [5, 6])] ("GET")
          ("/download/a.png")).storeAfter
        ("GET") ("/download/a.png")).result = .err 404 ("File not found") := by
  have h := c1_one_time_delivery cfgW [(("uploads/a.png"), [5, 6])] ("a.png") [5, 6]
    (by decide) (by decide)
  exact ⟨h.1, h.2⟩

/-- C8: with entropy unavailable the Filename Generator fails and neither
upload path touches the upload directory; with entropy available it draws
exactly the first 16 bytes of the random stream, encodes them over the
URL-safe base64 alphabet (padding included), and appends the original
extension with its leading dot verbatim — appending nothing when the
original name has no dot. -/
theorem c8_filename_generator (orig : String) (r : RandOracle) (cfg : Config)
    (req : UploadRequest) (st : Store) (w : WriteOracle) :
    (r.randOk = false →
      generateRandomFilename orig r = .error () ∧
      (handleMultipartUpload cfg req st r w).store = st ∧
      (handleFormUrlEncodedUpload cfg req st r w).store = st) ∧
    (r.randOk = true →
      generateRandomFilename orig r
        = .ok (base64urlEncode ((List.range 16).map r.randSrc) ++ goExt orig) ∧
      ((List.range 16).map r.randSrc).length = 16 ∧
      (base64urlEncode ((List.range 16).map r.randSrc)).data.all isUrlSafeChar = true) ∧
    ((∀ c ∈ orig.data, c ≠ '.') → goExt orig = "") := by
  refine ⟨?_, ?_, goExt_no_dot orig⟩
  · intro hr
    have hgen : ∀ s, generateRandomFilename s r = .error () := by
      intro s
      simp [generateRandomFilename, hr]
    refine ⟨hgen orig, ?_, ?_⟩
    · unfold handleMultipartUpload
      simp only [hgen]
      repeat' split
      all_goals rfl
    · unfold handleFormUrlEncodedUpload
      simp only [hgen]
      repeat' split
      all_goals rfl
  · intro hr
    exact ⟨by simp [generateRandomFilename, hr], by simp, base64urlEncode_urlSafe _⟩

/-- C8 witness: the generator at a dot-free name with the zero stream. -/
theorem c8_filename_generator_witness :
    generateRandomFilename ("x") randW = .ok (("AAAAAAAAAAAAAAAAAAAAAA==")) ∧
    goExt ("x") = "" := by
  have h := c8_filename_generator ("x") randW cfgW reqW [] wrW
  have h2 := (h.2.1 (by rfl)).1
  refine ⟨?_, h.2.2 (by decide)⟩
  rw [h2]
  rfl

/-- The success flag of an HTTP answer: the JSON success field, and false
for plain http.Error answers. -/
def respSuccess : HttpResponse → Bool
  | .plain _ _ => false
  | .json s _ _ _ => s

/-- C2 (amended): if os.Create fails, the upload directory is untouched and
the request errors; if the create succeeds but the content write fails, the
request errors but the created file remains in the directory with the bytes
written so far, retrievable under the minted identifier; a successful save
creates exactly one file, holding exactly the payload, and changes no other
entry. -/
theorem c2_save_failure_semantics (cfg : Config) (st : Store) (fn : String)
    (data : List UInt8) (o : WriteOracle) :
    (o.createOk = false →
      saveFileAndGenerateURL cfg st fn data o = (.error (), st)) ∧
    (o.createOk = true → o.writeOk = false →
      (saveFileAndGenerateURL cfg st fn data o).1 = .error () ∧
      storeLookup (saveFileAndGenerateURL cfg st fn data o).2
        (goJoin cfg.uploadDir fn) = some o.leftover) ∧
    (o.createOk = true → o.writeOk = true →
      saveFileAndGenerateURL cfg st fn data o
        = (.ok (("https://") ++ cfg.domain ++ ("/download/") ++ fn),
            storeSet st (goJoin cfg.uploadDir fn) data) ∧
      storeLookup (storeSet st (goJoin cfg.uploadDir fn) data)
        (goJoin cfg.uploadDir fn) = some data ∧
      (∀ k, k ≠ goJoin cfg.uploadDir fn →
        storeLookup (storeSet st (goJoin cfg.uploadDir fn) data) k
          = storeLookup st k)) := by
  refine ⟨?_, ?_, ?_⟩
  · intro hc
    simp [saveFileAndGenerateURL, hc]
  · intro hc hw
    simp [saveFileAndGenerateURL, hc, hw, storeSet_set, storeLookup_set_self]
  · intro hc hw
    refine ⟨?_, storeLookup_set_self _ _ _, fun k hk => storeLookup_set_ne _ _ _ _ hk⟩
    simp [saveFileAndGenerateURL, hc, hw, storeSet_set]

/-- C2 witness: a successful save at the concrete fixtures. -/
theorem c2_save_failure_semantics_witness :
    saveFileAndGenerateURL cfgW [] ("a.png") [1, 2] wrW
      = (.ok (("https://example.com/download/a.png")), [(("uploads/a.png"), [1, 2])]) := by
  have h := (c2_save_failure_semantics cfgW [] ("a.png") [1, 2] wrW).2.2 rfl rfl
  rw [h.1]
  rfl

/-- C2 counterexample: when os.Create succeeds and io.Copy fails, the
request is answered with a storage failure, yet the created (empty) file
remains and a download of the minted identifier streams it back with
status 200 instead of finding nothing — so a failed upload does create a
file, and an object retrievable by the identifier does exist afterward. -/
theorem c2_partial_file_counterexample :
    (saveFileAndGenerateURL cfgW [] ("abc.png") [1, 2, 3] ⟨true, false, []⟩).1
      = .error () ∧
    (downloadHandler cfgW
        (saveFileAndGenerateURL cfgW [] ("abc.png") [1, 2, 3] ⟨true, false, []⟩).2
        ("GET") ("/download/abc.png")).result
      = .file ("attachment; filename=abc.png") ("application/octet-stream") 0 [] :=
  ⟨rfl, by decide⟩

/-- C6: after a successful save of any byte sequence under a generated
name, the save reports the download URL, the first download of that
identifier streams back exactly the saved bytes with their exact length,
and the generated identifier ends with the original filename's extension. -/
theorem c6_round_trip (cfg : Config) (st : Store) (orig : String)
    (data : List UInt8) (r : RandOracle) (w : WriteOracle)
    (hr : r.randOk = true) (hc : w.createOk = true) (hw : w.writeOk = true)
    (fn : String) (hfn : generateRandomFilename orig r = .ok fn) :
    (saveFileAndGenerateURL cfg st fn data w).1
      = .ok (("https://") ++ cfg.domain ++ ("/download/") ++ fn) ∧
    (downloadHandler cfg (saveFileAndGenerateURL cfg st fn data w).2 ("GET")
        (("/download/") ++ fn)).result
      = .file (("attachment; filename=") ++ fn) ("application/octet-stream")
          data.length data ∧
    ∃ s, fn = s ++ goExt orig := by
  have hfn2 : fn = base64urlEncode ((List.range 16).map r.randSrc) ++ goExt orig := by
    simp [generateRandomFilename, hr] at hfn
    exact hfn.symm
  have hlen : fn.length
      = (base64urlEncode ((List.range 16).map r.randSrc)).length + (goExt orig).length := by
    rw [hfn2, String.length_append]
  have henc : (base64urlEncode ((List.range 16).map r.randSrc)).length = 24 := by
    rw [base64urlEncode_length]
    simp
  have hne : fn ≠ ("") := by
    intro h0
    rw [h0, String.length_empty, henc] at hlen
    omega
  have hsave := (c2_save_failure_semantics cfg st fn data w).2.2 hc hw
  have htrim : goTrimPfx (("/download/") ++ fn) ("/download/") = fn :=
    goTrimPfx_append _ _
  refine ⟨by rw [hsave.1], ?_, ⟨_, hfn2⟩⟩
  rw [hsave.1]
  simp [downloadHandler, htrim, hne, storeLookup_set_self]

/-- C6 witness: a 2-byte payload saved under a generated name and read
back. -/
theorem c6_round_trip_witness :
    (saveFileAndGenerateURL cfgW [] ("AAAAAAAAAAAAAAAAAAAAAA==.png") [7, 9] wrW).1
      = .ok (("https://example.com/download/AAAAAAAAAAAAAAAAAAAAAA==.png")) ∧
    (downloadHandler cfgW
        (saveFileAndGenerateURL cfgW [] ("AAAAAAAAAAAAAAAAAAAAAA==.png") [7, 9] wrW).2
        ("GET") ("/download/AAAAAAAAAAAAAAAAAAAAAA==.png")).result
      = .file ("attachment; filename=AAAAAAAAAAAAAAAAAAAAAA==.png")
          ("application/octet-stream") 2 [7, 9] := by
  have h := c6_round_trip cfgW [] ("photo.png") [7, 9] randW wrW rfl rfl rfl
    ("AAAAAAAAAAAAAAAAAAAAAA==.png") (by rfl)
  exact ⟨h.1, h.2.1⟩

/-- C9 (amended): a successful multipart upload of a file with extension
.png is answered success true with the URL built from the configured
domain, the fixed /download/ path and the minted identifier, whose random
part is 24 characters long (padded base64 of 16 random bytes). -/
theorem c9_success_url_shape (cfg : Config) (req : UploadRequest) (st : Store)
    (r : RandOracle) (w : WriteOracle)
    (hbody : req.bodyLen ≤ cfg.maxFileSize) (hp : req.mpParseOk = true)
    (hf : req.formFileOk = true) (hread : req.readOk = true)
    (hlen : req.mpFileData.length ≤ cfg.maxFileSize)
    (hct : isAllowedFileType cfg.allowedTypes
        (resolveMultipartContentType req.mpPartType req.xFileType
          req.mpFiletypeField req.mpSniffed) = true)
    (hr : r.randOk = true) (hc : w.createOk = true) (hw : w.writeOk = true)
    (hext : goExt req.mpFileName = (".png")) :
    ∃ enc, (handleMultipartUpload cfg req st r w).resp
        = .json true ("File uploaded successfully")
            (("https://") ++ cfg.domain ++ ("/download/") ++ (enc ++ (".png"))) none ∧
      enc.length = 24 := by
  refine ⟨base64urlEncode ((List.range 16).map r.randSrc), ?_, ?_⟩
  · have h1 : ¬cfg.maxFileSize < req.bodyLen := by omega
    have h2 : ¬cfg.maxFileSize < req.mpFileData.length := by omega
    unfold handleMultipartUpload
    simp [h1, h2, hp, hf, hread, hct, generateRandomFilename, hr, hext,
      saveFileAndGenerateURL, hc, hw, sendJSONResponse]
  · rw [base64urlEncode_length]
    simp

/-- C9 witness: the concrete 3-byte png upload. -/
theorem c9_success_url_shape_witness :
    ∃ enc, (handleMultipartUpload cfgW reqW [] randW wrW).resp
        = .json true ("File uploaded successfully")
            (("https://") ++ cfgW.domain ++ ("/download/") ++ (enc ++ (".png"))) none ∧
      enc.length = 24 :=
  c9_success_url_shape cfgW reqW [] randW wrW (by decide) rfl rfl rfl (by decide)
    (by decide) rfl rfl rfl (by decide)

/-- C9 counterexample: the same upload written out: the random part of the
minted identifier has 24 characters, not the 32 the claim requires. -/
theorem c9_url_shape_counterexample :
    (handleMultipartUpload cfgW reqW [] randW wrW).resp
      = .json true ("File uploaded successfully")
          ("https://example.com/download/AAAAAAAAAAAAAAAAAAAAAA==.png") none ∧
    ("AAAAAAAAAAAAAAAAAAAAAA==" : String).length ≠ 32 :=
  ⟨by decide, by decide⟩

/-- C4 (amended): both transport shapes reject a decoded payload one byte
over max_file_size with the same File too large answer and no file created.
One byte under the limit is accepted on the url-encoded path (other
validations passing); on the multipart path the whole encoded body is
additionally capped at the same limit during read, so a one-under payload
is accepted only when the multipart framing still fits the cap and is
rejected otherwise. The url-encoded path reads the body uncapped and
materialises the fully decoded payload before its size check. -/
theorem c4_size_enforcement (cfg : Config) (req : UploadRequest) (st : Store)
    (r : RandOracle) (w : WriteOracle) :
    (req.mpParseOk = true → req.formFileOk = true → req.readOk = true →
      req.mpFileData.length = cfg.maxFileSize + 1 →
      (handleMultipartUpload cfg req st r w).resp
        = .json false ("File too large") "" none ∧
      (handleMultipartUpload cfg req st r w).store = st) ∧
    (∀ d, req.ueParseOk = true → req.ueData ≠ ("") → req.ueDecoded = some d →
      d.length = cfg.maxFileSize + 1 →
      (handleFormUrlEncodedUpload cfg req st r w).resp
        = .json false ("File too large") "" none ∧
      (handleFormUrlEncodedUpload cfg req st r w).events
        = [Event.readAll req.bodyLen, Event.bufferDecoded (cfg.maxFileSize + 1)] ∧
      (handleFormUrlEncodedUpload cfg req st r w).store = st) ∧
    (∀ d, req.ueParseOk = true → req.ueData ≠ ("") → req.ueDecoded = some d →
      d.length + 1 = cfg.maxFileSize →
      isAllowedFileType cfg.allowedTypes
        (resolveUrlEncodedContentType req.ueType req.xFileType req.ueSniffed) = true →
      r.randOk = true → w.createOk = true → w.writeOk = true →
      respSuccess (handleFormUrlEncodedUpload cfg req st r w).resp = true) ∧
    (req.mpParseOk = true → req.formFileOk = true → req.readOk = true →
      req.mpFileData.length + 1 = cfg.maxFileSize →
      (cfg.maxFileSize < req.bodyLen →
        (handleMultipartUpload cfg req st r w).resp
          = .json false ("File too large") "" none) ∧
      (req.bodyLen ≤ cfg.maxFileSize →
        isAllowedFileType cfg.allowedTypes
          (resolveMultipartContentType req.mpPartType req.xFileType
            req.mpFiletypeField req.mpSniffed) = true →
        r.randOk = true → w.createOk = true → w.writeOk = true →
        respSuccess (handleMultipartUpload cfg req st r w).resp = true)) := by
  refine ⟨?_, ?_, ?_, ?_⟩
  · intro hp hf hread hlen
    by_cases hb : cfg.maxFileSize < req.bodyLen
    · simp [handleMultipartUpload, hb, sendJSONResponse]
    · have h2 : cfg.maxFileSize < req.mpFileData.length := by omega
      simp [handleMultipartUpload, hb, hp, hf, hread, h2, sendJSONResponse]
  · intro d hp hd hdec hlen
    have h2 : cfg.maxFileSize < d.length := by omega
    simp [handleFormUrlEncodedUpload, hp, hd, hdec, h2, hlen, sendJSONResponse]
  · intro d hp hd hdec hlen hct hr hc hw
    have h2 : ¬cfg.maxFileSize < d.length := by omega
    simp [handleFormUrlEncodedUpload, hp, hd, hdec, h2, hct, generateRandomFilename,
      hr, saveFileAndGenerateURL, hc, hw, sendJSONResponse, respSuccess]
  · intro hp hf hread hlen
    constructor
    · intro hb
      simp [handleMultipartUpload, hb, sendJSONResponse]
    · intro hb hct hr hc hw
      have h1 : ¬cfg.maxFileSize < req.bodyLen := by omega
      have h2 : ¬cfg.maxFileSize < req.mpFileData.length := by omega
      simp [handleMultipartUpload, h1, h2, hp, hf, hread, hct, generateRandomFilename,
        hr, saveFileAndGenerateURL, hc, hw, sendJSONResponse, respSuccess]

/-- A url-encoded upload request carrying a 9-byte payload, one byte under
the 10-byte limit of cfgW, with every other validation passing. -/
def reqUnderUE : UploadRequest :=
  { reqW with contentType := ("application/x-www-form-urlencoded")
              ueData := ("AQEBAQEBAQEB"), ueDecoded := some (List.replicate 9 1)
              ueSniffed := ("image/png") }

/-- C4 witness: the one-under url-encoded payload is accepted, and a
one-over multipart payload is rejected as too large. -/
theorem c4_size_enforcement_witness :
    respSuccess (handleFormUrlEncodedUpload cfgW reqUnderUE [] randW wrW).resp = true ∧
    (handleMultipartUpload cfgW { reqW with mpFileData := List.replicate 11 1 }
        [] randW wrW).resp = .json false ("File too large") "" none := by
  have h := c4_size_enforcement cfgW reqUnderUE [] randW wrW
  have h2 := c4_size_enforcement cfgW { reqW with mpFileData := List.replicate 11 1 }
    [] randW wrW
  exact ⟨h.2.2.1 (List.replicate 9 1) rfl (by decide) rfl (by decide) (by decide)
      rfl rfl rfl,
    (h2.1 rfl rfl rfl (by decide)).1⟩

/-- A well-formed multipart request whose 9-byte payload is one byte under
the 10-byte limit, sent as a standard multipart body: 9 payload bytes plus
104 bytes of boundary and header framing, 113 bytes in all. -/
def reqUnderMP : UploadRequest :=
  { reqW with bodyLen := multipartBodyLen ("b") ("a.png") ("image/png") 9
              mpFileData := List.replicate 9 1, mpFileName := ("a.png") }

/-- C4 counterexample: the claim's one-under acceptance fails on the
multipart path — a 9-byte file under a 10-byte limit, framed as a standard
113-byte multipart body, is rejected as too large because MaxBytesReader
caps the whole encoded body at the limit; and on the url-encoded path an
over-limit payload is fully decoded and buffered (11 bytes materialised)
before the size check rejects it, so the excess is buffered. -/
theorem c4_boundary_counterexample :
    (handleMultipartUpload cfgW reqUnderMP [] randW wrW).resp
      = .json false ("File too large") "" none ∧
    (handleFormUrlEncodedUpload cfgW
        { reqUnderUE with ueData := ("AQEBAQEBAQEBAQE=")
                          ueDecoded := some (List.replicate 11 1) }
        [] randW wrW).resp = .json false ("File too large") "" none ∧
    (handleFormUrlEncodedUpload cfgW
        { reqUnderUE with ueData := ("AQEBAQEBAQEBAQE=")
                          ueDecoded := some (List.replicate 11 1) }
        [] randW wrW).events = [Event.readAll 8, Event.bufferDecoded 11] :=
  ⟨by decide, by decide, by decide⟩

end AssetServer
